import Mathlib

/-!
Verification of the insurance-contract program: a shallow embedding of the
record layout codec (`state.rs`), the operation codec (`instruction.rs`),
the error type (`error.rs`) and the two processor entry points
(`processor.rs`), with theorems settling the specification claims.

Bytes are modelled as `Nat` (a real byte is `< 256`; validity hypotheses are
added where exactness depends on it), `u32` values as `Nat` with `% 2^32`
where truncation matters, pubkeys as `Nat`, and fallible operations return
`Except`. A Rust panic (out-of-bounds slice split) is an explicit outcome.
-/

namespace InsuranceContract

/-! ### Errors (`error.rs` and the host error channel) -/

/-- The program-specific error enum, variants in declaration order. -/
inductive InsuranceContractError
  | InvalidInstruction
  | NotInitialized
  | AlreadyInitialized
  | AlreadyClosed
  deriving DecidableEq

/-- `e as u32`: the discriminant of the variant, in declaration order. -/
def InsuranceContractError.toCode : InsuranceContractError → Nat
  | .InvalidInstruction => 0
  | .NotInitialized => 1
  | .AlreadyInitialized => 2
  | .AlreadyClosed => 3

/-- The host error channel (`solana_program::program_error::ProgramError`),
restricted to the variants this program can produce. `BorshIoError` stands
for the I/O error a failed borsh (de)serialization converts into. -/
inductive ProgramError
  | Custom (code : Nat)
  | MissingRequiredSignature
  | IncorrectProgramId
  | AccountNotRentExempt
  | BorshIoError
  deriving DecidableEq

/-- `impl From<InsuranceContractError> for ProgramError`:
`ProgramError::Custom(e as u32)`. -/
def InsuranceContractError.toProgramError (e : InsuranceContractError) : ProgramError :=
  ProgramError.Custom e.toCode

/-! ### Record layout (`state.rs` plus the borsh codec) -/

/-- `INSURANCE_CONTRACT_DATA_LEN = 1 + 1 + 4`. -/
def INSURANCE_CONTRACT_DATA_LEN : Nat := 1 + 1 + 4

/-- The persisted record (`InsuranceContractData`). The identifier is a
`u32` in the source; here a `Nat`, with `< 2^32` as a hypothesis where
exactness depends on it. -/
structure InsuranceContractData where
  is_initialized : Bool
  is_closed : Bool
  insurance_contract_id : Nat
  deriving DecidableEq

/-- Little-endian `u32` read: `u32::from_le_bytes([b0,b1,b2,b3])`. -/
def u32FromLeBytes (b0 b1 b2 b3 : Nat) : Nat :=
  b0 + 256 * b1 + 65536 * b2 + 16777216 * b3

/-- Little-endian `u32` write: `n.to_le_bytes()` (truncates above 2^32,
as the `u32` type does in the source). -/
def u32ToLeBytes (n : Nat) : List Nat :=
  [n % 256, n / 256 % 256, n / 65536 % 256, n / 16777216 % 256]

/-- Borsh serialization of the record: `is_initialized` byte, `is_closed`
byte, then the identifier as 4 little-endian bytes. -/
def InsuranceContractData.serializeBytes (d : InsuranceContractData) : List Nat :=
  (if d.is_initialized then 1 else 0) :: (if d.is_closed then 1 else 0) ::
    u32ToLeBytes d.insurance_contract_id

/-- Borsh deserialization of one `bool`: one byte, `0 => false`,
`1 => true`, anything else (or end of input) is an I/O error. -/
def deserializeBoolB : List Nat → Except ProgramError (Bool × List Nat)
  | [] => .error ProgramError.BorshIoError
  | b :: rest =>
    if b = 0 then .ok (false, rest)
    else if b = 1 then .ok (true, rest)
    else .error ProgramError.BorshIoError

/-- Borsh deserialization of one `u32`: four little-endian bytes, end of
input is an I/O error. -/
def deserializeU32B : List Nat → Except ProgramError (Nat × List Nat)
  | b0 :: b1 :: b2 :: b3 :: rest => .ok (u32FromLeBytes b0 b1 b2 b3, rest)
  | _ => .error ProgramError.BorshIoError

/-- `InsuranceContractData::try_from_slice`: deserialize the fields in
declaration order, then require that the whole buffer was consumed
(borsh's "not all bytes read" check). -/
def InsuranceContractData.try_from_slice (v : List Nat) :
    Except ProgramError InsuranceContractData :=
  match deserializeBoolB v with
  | .error e => .error e
  | .ok (ini, r1) =>
    match deserializeBoolB r1 with
    | .error e => .error e
    | .ok (clo, r2) =>
      match deserializeU32B r2 with
      | .error e => .error e
      | .ok (ident, r3) =>
        if r3 = [] then .ok ⟨ini, clo, ident⟩
        else .error ProgramError.BorshIoError

/-- `serialize(&mut &mut buf[..])`: write the record's bytes at the front
of the buffer. The `&mut [u8]` writer accepts as many bytes as fit; the
flag is `false` when the buffer was too short (the write error case, with
the fitting prefix already written). -/
def serializeInto (d : InsuranceContractData) (buf : List Nat) : List Nat × Bool :=
  let bytes := d.serializeBytes
  if bytes.length ≤ buf.length then (bytes ++ buf.drop bytes.length, true)
  else (bytes.take buf.length, false)

/-! ### Operation wire format (`instruction.rs`) -/

/-- The two operations (`InsuranceContractInstruction`). -/
inductive InsuranceContractInstruction
  | SaveInsuranceContract (insurance_contract_id : Nat)
  | CloseInsuranceContract
  deriving DecidableEq

/-- Outcome of `unpack`: a decoded operation, a returned error, or a Rust
panic (`rest.split_at(4)` with `rest.len() < 4` aborts the process). -/
inductive UnpackResult
  | ok (i : InsuranceContractInstruction)
  | err (e : ProgramError)
  | panicked
  deriving DecidableEq

/-- `InsuranceContractInstruction::unpack`. Empty input: `split_first`
fails, `InvalidInstruction`. Tag 0: `rest.split_at(4)` panics when fewer
than 4 bytes follow; otherwise the `try_into` always succeeds and the four
bytes are read little-endian. Tag 1: `CloseInsuranceContract`. Any other
tag: `InvalidInstruction`. -/
def unpack (input : List Nat) : UnpackResult :=
  match input with
  | [] => .err InsuranceContractError.InvalidInstruction.toProgramError
  | 0 :: b0 :: b1 :: b2 :: b3 :: _ =>
    .ok (.SaveInsuranceContract (u32FromLeBytes b0 b1 b2 b3))
  | 0 :: _ => .panicked
  | 1 :: _ => .ok .CloseInsuranceContract
  | _ :: _ => .err InsuranceContractError.InvalidInstruction.toProgramError

/-- `InsuranceContractInstruction::pack`: tag byte, then for
`SaveInsuranceContract` the identifier as 4 little-endian bytes. -/
def InsuranceContractInstruction.pack : InsuranceContractInstruction → List Nat
  | .SaveInsuranceContract ident => 0 :: u32ToLeBytes ident
  | .CloseInsuranceContract => [1]

/-- Validity of an operation: the identifier fits in a `u32` (automatic in
the source's types). -/
def InsuranceContractInstruction.Valid : InsuranceContractInstruction → Prop
  | .SaveInsuranceContract ident => ident < 2 ^ 32
  | .CloseInsuranceContract => True

/-! ### Basic codec lemmas -/

theorem u32_round_trip (n : Nat) :
    u32FromLeBytes (n % 256) (n / 256 % 256) (n / 65536 % 256) (n / 16777216 % 256) =
      n % 2 ^ 32 := by
  unfold u32FromLeBytes
  omega

theorem serializeBytes_length (d : InsuranceContractData) :
    d.serializeBytes.length = INSURANCE_CONTRACT_DATA_LEN := by
  rcases d with ⟨ini, clo, ident⟩
  simp [InsuranceContractData.serializeBytes, u32ToLeBytes, INSURANCE_CONTRACT_DATA_LEN]

theorem try_from_slice_serializeBytes (d : InsuranceContractData) :
    InsuranceContractData.try_from_slice d.serializeBytes =
      .ok ⟨d.is_initialized, d.is_closed, d.insurance_contract_id % 2 ^ 32⟩ := by
  rcases d with ⟨ini, clo, ident⟩
  cases ini <;> cases clo <;>
    simp [InsuranceContractData.serializeBytes, InsuranceContractData.try_from_slice,
      deserializeBoolB, deserializeU32B, u32ToLeBytes, u32FromLeBytes] <;>
    omega

theorem deserializeBoolB_ok_length {v : List Nat} {x : Bool} {r : List Nat}
    (h : deserializeBoolB v = .ok (x, r)) : v.length = r.length + 1 := by
  cases v with
  | nil => simp [deserializeBoolB] at h
  | cons b t =>
    revert h
    simp only [deserializeBoolB]
    split_ifs <;> intro h <;> simp_all

theorem deserializeBoolB_error_value {v : List Nat} {e : ProgramError}
    (h : deserializeBoolB v = .error e) : e = ProgramError.BorshIoError := by
  cases v with
  | nil => simp_all [deserializeBoolB]
  | cons b t =>
    revert h
    simp only [deserializeBoolB]
    split_ifs <;> intro h <;> simp_all

theorem deserializeU32B_ok_length {v : List Nat} {x : Nat} {r : List Nat}
    (h : deserializeU32B v = .ok (x, r)) : v.length = r.length + 4 := by
  rcases v with _ | ⟨b0, _ | ⟨b1, _ | ⟨b2, _ | ⟨b3, t⟩⟩⟩⟩ <;>
    simp [deserializeU32B] at h
  obtain ⟨-, rfl⟩ := h
  simp

theorem deserializeU32B_error_value {v : List Nat} {e : ProgramError}
    (h : deserializeU32B v = .error e) : e = ProgramError.BorshIoError := by
  rcases v with _ | ⟨b0, _ | ⟨b1, _ | ⟨b2, _ | ⟨b3, t⟩⟩⟩⟩ <;>
    simp_all [deserializeU32B]

theorem try_from_slice_ok_length {v : List Nat} {d : InsuranceContractData}
    (h : InsuranceContractData.try_from_slice v = .ok d) :
    v.length = INSURANCE_CONTRACT_DATA_LEN := by
  unfold InsuranceContractData.try_from_slice at h
  split at h
  case h_1 => exact absurd h (by simp)
  case h_2 heq1 =>
    split at h
    case h_1 => exact absurd h (by simp)
    case h_2 heq2 =>
      split at h
      case h_1 => exact absurd h (by simp)
      case h_2 heq3 =>
        split at h
        case isFalse => exact absurd h (by simp)
        case isTrue hr3 =>
          have h1 := deserializeBoolB_ok_length heq1
          have h2 := deserializeBoolB_ok_length heq2
          have h3 := deserializeU32B_ok_length heq3
          subst hr3
          simp only [List.length_nil, INSURANCE_CONTRACT_DATA_LEN] at h3 ⊢
          omega

theorem try_from_slice_error_shape (v : List Nat) :
    InsuranceContractData.try_from_slice v = .error ProgramError.BorshIoError ∨
      ∃ d, InsuranceContractData.try_from_slice v = .ok d := by
  unfold InsuranceContractData.try_from_slice
  cases h1 : deserializeBoolB v with
  | error e1 => left; simp [deserializeBoolB_error_value h1]
  | ok p1 =>
    obtain ⟨x1, r1⟩ := p1
    cases h2 : deserializeBoolB r1 with
    | error e2 => left; simp [h2, deserializeBoolB_error_value h2]
    | ok p2 =>
      obtain ⟨x2, r2⟩ := p2
      cases h3 : deserializeU32B r2 with
      | error e3 => left; simp [h2, h3, deserializeU32B_error_value h3]
      | ok p3 =>
        obtain ⟨x3, r3⟩ := p3
        by_cases hr : r3 = []
        · right; exact ⟨⟨x1, x2, x3⟩, by simp [h2, h3, hr]⟩
        · left; simp [h2, h3, hr]

/-! ### Processor (`processor.rs`)

The two entry points, with the host facts the source reads from the
accounts passed in as parameters: the authority's `is_signer` flag, the
data account's `owner`, its `lamports`, the rent sysvar's
`minimum_balance(INSURANCE_CONTRACT_DATA_LEN)` (so `rent.is_exempt` is the
comparison `minimum_balance ≤ lamports`), and the data account's bytes.
Each returns the account bytes after the call together with the
`ProgramResult`. -/

/-- `Processor::process_save_insurance_contract`. -/
def process_save_insurance_contract (program_id : Nat) (authority_is_signer : Bool)
    (account_owner account_lamports rent_minimum_balance : Nat)
    (account_data : List Nat) (insurance_contract_id : Nat) :
    List Nat × Except ProgramError Unit :=
  if authority_is_signer = false then
    (account_data, .error ProgramError.MissingRequiredSignature)
  else if account_owner ≠ program_id then
    (account_data, .error ProgramError.IncorrectProgramId)
  else if account_lamports < rent_minimum_balance then
    (account_data, .error ProgramError.AccountNotRentExempt)
  else
    match InsuranceContractData.try_from_slice account_data with
    | .error e => (account_data, .error e)
    | .ok d =>
      if d.is_initialized then
        (account_data, .error InsuranceContractError.AlreadyInitialized.toProgramError)
      else if d.is_closed then
        (account_data, .error InsuranceContractError.AlreadyClosed.toProgramError)
      else
        match serializeInto ⟨true, false, insurance_contract_id⟩ account_data with
        | (bytes, true) => (bytes, .ok ())
        | (bytes, false) => (bytes, .error ProgramError.BorshIoError)

/-- `Processor::process_close_insurance_contract`. -/
def process_close_insurance_contract (program_id : Nat) (authority_is_signer : Bool)
    (account_owner : Nat) (account_data : List Nat) :
    List Nat × Except ProgramError Unit :=
  if authority_is_signer = false then
    (account_data, .error ProgramError.MissingRequiredSignature)
  else if account_owner ≠ program_id then
    (account_data, .error ProgramError.IncorrectProgramId)
  else
    match InsuranceContractData.try_from_slice account_data with
    | .error e => (account_data, .error e)
    | .ok d =>
      if d.is_initialized = false then
        (account_data, .error InsuranceContractError.NotInitialized.toProgramError)
      else if d.is_closed then
        (account_data, .error InsuranceContractError.AlreadyClosed.toProgramError)
      else
        match serializeInto { d with is_closed := true } account_data with
        | (bytes, true) => (bytes, .ok ())
        | (bytes, false) => (bytes, .error ProgramError.BorshIoError)

/-- One invocation of the program against a record, with the host facts of
that invocation. -/
inductive Op
  | save (program_id : Nat) (authority_is_signer : Bool)
      (account_owner account_lamports rent_minimum_balance : Nat)
      (insurance_contract_id : Nat)
  | close (program_id : Nat) (authority_is_signer : Bool) (account_owner : Nat)

def applyOp (account_data : List Nat) : Op → List Nat × Except ProgramError Unit
  | .save pid s own l m i =>
    process_save_insurance_contract pid s own l m account_data i
  | .close pid s own =>
    process_close_insurance_contract pid s own account_data

def applyOps (account_data : List Nat) : List Op → List Nat
  | [] => account_data
  | op :: rest => applyOps (applyOp account_data op).1 rest

/-- The freshly allocated record buffer: `INSURANCE_CONTRACT_DATA_LEN`
zero bytes. -/
def zeroRecord : List Nat := List.replicate INSURANCE_CONTRACT_DATA_LEN 0

/-- The record states reachable from the fresh buffer by any sequence of
invocations, successful or failed. -/
inductive Reachable : List Nat → Prop
  | init : Reachable zeroRecord
  | step (op : Op) {account_data : List Nat} :
      Reachable account_data → Reachable (applyOp account_data op).1

/-! ### Processor case analysis -/

theorem serializeInto_full {buf : List Nat} (d : InsuranceContractData)
    (hlen : buf.length = INSURANCE_CONTRACT_DATA_LEN) :
    serializeInto d buf = (d.serializeBytes, true) := by
  have hb := serializeBytes_length d
  simp only [serializeInto]
  rw [if_pos (by omega)]
  rw [List.drop_eq_nil_of_le (by omega), List.append_nil]

/-- Every run of the save entry point either leaves the bytes unchanged and
returns an error, or all preconditions held and the new bytes are the
encoding of the freshly initialized record. -/
theorem save_cases (pid : Nat) (s : Bool) (own l m : Nat) (data : List Nat) (i : Nat) :
    (∃ e, process_save_insurance_contract pid s own l m data i = (data, .error e)) ∨
    (s = true ∧ own = pid ∧ m ≤ l ∧
      ∃ d, InsuranceContractData.try_from_slice data = .ok d ∧
        d.is_initialized = false ∧ d.is_closed = false ∧
        process_save_insurance_contract pid s own l m data i =
          (InsuranceContractData.serializeBytes ⟨true, false, i⟩, .ok ())) := by
  unfold process_save_insurance_contract
  by_cases hs : s = false
  · left; exact ⟨_, by rw [if_pos hs]⟩
  · rw [if_neg hs]
    by_cases ho : own ≠ pid
    · left; exact ⟨_, by rw [if_pos ho]⟩
    · rw [if_neg ho]
      by_cases hl : l < m
      · left; exact ⟨_, by rw [if_pos hl]⟩
      · rw [if_neg hl]
        cases hd : InsuranceContractData.try_from_slice data with
        | error e => left; exact ⟨e, rfl⟩
        | ok d =>
          by_cases hi : d.is_initialized = true
          · left
            exact ⟨InsuranceContractError.AlreadyInitialized.toProgramError, by simp [hi]⟩
          · by_cases hc : d.is_closed = true
            · left
              exact ⟨InsuranceContractError.AlreadyClosed.toProgramError, by simp [hi, hc]⟩
            · right
              refine ⟨by revert hs; cases s <;> simp, (not_not.mp ho).symm ▸ rfl, by omega,
                d, rfl, by simpa using hi, by simpa using hc, ?_⟩
              simp [hi, hc, serializeInto_full _ (try_from_slice_ok_length hd)]

/-- Every run of the close entry point either leaves the bytes unchanged
and returns an error, or all preconditions held and the new bytes are the
encoding of the record with `is_closed` set. -/
theorem close_cases (pid : Nat) (s : Bool) (own : Nat) (data : List Nat) :
    (∃ e, process_close_insurance_contract pid s own data = (data, .error e)) ∨
    (s = true ∧ own = pid ∧
      ∃ d, InsuranceContractData.try_from_slice data = .ok d ∧
        d.is_initialized = true ∧ d.is_closed = false ∧
        process_close_insurance_contract pid s own data =
          (InsuranceContractData.serializeBytes ⟨true, true, d.insurance_contract_id⟩,
            .ok ())) := by
  unfold process_close_insurance_contract
  by_cases hs : s = false
  · left; exact ⟨_, by rw [if_pos hs]⟩
  · rw [if_neg hs]
    by_cases ho : own ≠ pid
    · left; exact ⟨_, by rw [if_pos ho]⟩
    · rw [if_neg ho]
      cases hd : InsuranceContractData.try_from_slice data with
      | error e => left; exact ⟨e, rfl⟩
      | ok d =>
        by_cases hi : d.is_initialized = true
        · by_cases hc : d.is_closed = true
          · left
            exact ⟨InsuranceContractError.AlreadyClosed.toProgramError, by simp [hi, hc]⟩
          · right
            refine ⟨by revert hs; cases s <;> simp, (not_not.mp ho).symm ▸ rfl,
              d, rfl, hi, by simpa using hc, ?_⟩
            have hrec : ({ d with is_closed := true } : InsuranceContractData) =
                ⟨true, true, d.insurance_contract_id⟩ := by
              rcases d with ⟨di, dc, dn⟩
              simp_all
            simp [hi, hc, hrec, serializeInto_full _ (try_from_slice_ok_length hd)]
        · left
          exact ⟨InsuranceContractError.NotInitialized.toProgramError, by simp [hi]⟩

/-! ### Claim theorems -/

/-- C1: the claim says instruction decoding rejects every malformed input
with `InvalidInstruction` and never panics. The code disagrees: an input
whose first byte is 0 followed by fewer than 4 bytes makes
`rest.split_at(4)` panic instead of returning `InvalidInstruction`. Empty
input and unknown tags do return `InvalidInstruction` (`Custom 0`). -/
theorem unpack_malformed_divergence :
    unpack [0] = UnpackResult.panicked ∧
      unpack [0, 17, 34] = UnpackResult.panicked ∧
      unpack [] = .err (ProgramError.Custom 0) ∧
      unpack [2] = .err (ProgramError.Custom 0) ∧
      unpack [255, 1, 2, 3, 4] = .err (ProgramError.Custom 0) :=
  ⟨rfl, rfl, rfl, rfl, rfl⟩

/-- C2: on a record decoding as uninitialized and unclosed, with the
authority signed, the owner matching and funding at least the retention
minimum, Initialize succeeds and the new bytes decode to
`{initialized: true, closed: false, identifier: input}`. -/
theorem save_fresh_record_initializes
    (program_id account_lamports rent_minimum_balance insurance_contract_id : Nat)
    (account_data : List Nat) (d : InsuranceContractData)
    (hdec : InsuranceContractData.try_from_slice account_data = .ok d)
    (hini : d.is_initialized = false) (hclo : d.is_closed = false)
    (hfund : rent_minimum_balance ≤ account_lamports)
    (hid : insurance_contract_id < 2 ^ 32) :
    (process_save_insurance_contract program_id true program_id account_lamports
        rent_minimum_balance account_data insurance_contract_id).2 = .ok () ∧
      InsuranceContractData.try_from_slice
        (process_save_insurance_contract program_id true program_id account_lamports
          rent_minimum_balance account_data insurance_contract_id).1 =
        .ok ⟨true, false, insurance_contract_id⟩ := by
  unfold process_save_insurance_contract
  rw [if_neg (by simp), if_neg (by simp), if_neg (by omega), hdec]
  simp only [hini, hclo, Bool.false_eq_true, if_false]
  rw [serializeInto_full _ (try_from_slice_ok_length hdec)]
  refine ⟨rfl, ?_⟩
  rw [try_from_slice_serializeBytes]
  have hid2 : insurance_contract_id < 4294967296 := by omega
  simp [Nat.mod_eq_of_lt hid2]

theorem save_fresh_record_initializes_witness :
    (process_save_insurance_contract 1 true 1 5 5 zeroRecord 11223344).2 = .ok () ∧
      InsuranceContractData.try_from_slice
        (process_save_insurance_contract 1 true 1 5 5 zeroRecord 11223344).1 =
        .ok ⟨true, false, 11223344⟩ :=
  save_fresh_record_initializes 1 5 5 11223344 zeroRecord ⟨false, false, 0⟩ rfl
    rfl rfl (Nat.le_refl 5) (by decide)

/-- C8: both codecs satisfy the round-trip law: decoding the encoding of a
valid record gives the record back, and decoding the encoding of an
operation gives the operation back. -/
theorem codec_round_trip :
    (∀ d : InsuranceContractData, d.insurance_contract_id < 2 ^ 32 →
      InsuranceContractData.try_from_slice d.serializeBytes = .ok d) ∧
    (∀ op : InsuranceContractInstruction, op.Valid → unpack op.pack = .ok op) := by
  constructor
  · intro d hd
    rw [try_from_slice_serializeBytes]
    rcases d with ⟨ini, clo, ident⟩
    simp only at hd ⊢
    have hd2 : ident < 4294967296 := by omega
    simp [Nat.mod_eq_of_lt hd2]
  · intro op hop
    cases op with
    | SaveInsuranceContract ident =>
      simp only [InsuranceContractInstruction.pack, u32ToLeBytes, unpack]
      rw [u32_round_trip]
      simp only [InsuranceContractInstruction.Valid] at hop
      have hop2 : ident < 4294967296 := by omega
      simp [Nat.mod_eq_of_lt hop2]
    | CloseInsuranceContract => rfl

theorem codec_round_trip_witness :
    InsuranceContractData.try_from_slice
        (InsuranceContractData.serializeBytes ⟨true, false, 7⟩) = .ok ⟨true, false, 7⟩ ∧
      unpack (InsuranceContractInstruction.pack (.SaveInsuranceContract 11223344)) =
        .ok (.SaveInsuranceContract 11223344) :=
  ⟨codec_round_trip.1 ⟨true, false, 7⟩ (by decide),
   codec_round_trip.2 (.SaveInsuranceContract 11223344)
     (show (11223344 : Nat) < 2 ^ 32 by decide)⟩

/-- C9 counterexample: the claim says record decoding fails exactly when
the buffer is shorter than `LEN = 6`. A 7-byte zero buffer is not shorter,
yet decoding fails (borsh rejects trailing bytes). -/
theorem record_decode_length_counterexample :
    ¬ (List.replicate 7 0).length < INSURANCE_CONTRACT_DATA_LEN ∧
      InsuranceContractData.try_from_slice (List.replicate 7 0) =
        .error ProgramError.BorshIoError :=
  ⟨by decide, rfl⟩

/-- Buffers that can occur as a record of the correct length: flag bytes
are 0 or 1 (the identifier bytes are unconstrained). -/
def WellFormedRecordBytes (v : List Nat) : Prop :=
  v.length = INSURANCE_CONTRACT_DATA_LEN ∧ ∀ b ∈ v.take 2, b = 0 ∨ b = 1

/-- C9 amended: record decoding fails with a decoding error on every
buffer shorter than `LEN`, and succeeds on every `LEN`-byte buffer with
well-formed contents (a zero-filled buffer decodes to the default record);
but short buffers are not the only failing inputs — longer buffers fail
too, as the counterexample shows. -/
theorem record_decode_failure_characterization :
    (∀ v : List Nat, v.length < INSURANCE_CONTRACT_DATA_LEN →
      InsuranceContractData.try_from_slice v = .error ProgramError.BorshIoError) ∧
    (∀ v : List Nat, WellFormedRecordBytes v →
      ∃ d, InsuranceContractData.try_from_slice v = .ok d) ∧
    InsuranceContractData.try_from_slice zeroRecord = .ok ⟨false, false, 0⟩ := by
  refine ⟨?_, ?_, rfl⟩
  · intro v hv
    rcases try_from_slice_error_shape v with herr | ⟨d, hok⟩
    · exact herr
    · exact absurd (try_from_slice_ok_length hok) (by omega)
  · intro v hv
    obtain ⟨hlen, hflags⟩ := hv
    rcases v with _ | ⟨a, _ | ⟨b, _ | ⟨c0, _ | ⟨c1, _ | ⟨c2, _ | ⟨c3, t⟩⟩⟩⟩⟩⟩ <;>
      simp only [List.length, INSURANCE_CONTRACT_DATA_LEN] at hlen <;> try omega
    have ht : t = [] := by
      have := hlen
      simpa using List.length_eq_zero.mp (by omega)
    subst ht
    have ha : a = 0 ∨ a = 1 := hflags a (by simp)
    have hb : b = 0 ∨ b = 1 := hflags b (by simp)
    rcases ha with rfl | rfl <;> rcases hb with rfl | rfl <;> exact ⟨_, rfl⟩

theorem record_decode_failure_characterization_witness :
    InsuranceContractData.try_from_slice [0, 0, 0] = .error ProgramError.BorshIoError ∧
      ∃ d, InsuranceContractData.try_from_slice [1, 1, 2, 3, 4, 5] = .ok d :=
  ⟨record_decode_failure_characterization.1 [0, 0, 0] (by decide),
   record_decode_failure_characterization.2.1 [1, 1, 2, 3, 4, 5] ⟨rfl, by decide⟩⟩

/-- C3: each entry point checks its preconditions in the spec's order and
returns the error of the first failing check. Initialize: missing
signature, owner mismatch, funding below the minimum, already initialized,
already closed. Close: missing signature, owner mismatch, not initialized,
already closed. -/
theorem precondition_order_first_failure_wins (pid own l m i : Nat) (s : Bool)
    (data : List Nat) :
    (s = false →
      (process_save_insurance_contract pid s own l m data i).2 =
        .error ProgramError.MissingRequiredSignature) ∧
    (s = true → own ≠ pid →
      (process_save_insurance_contract pid s own l m data i).2 =
        .error ProgramError.IncorrectProgramId) ∧
    (s = true → own = pid → l < m →
      (process_save_insurance_contract pid s own l m data i).2 =
        .error ProgramError.AccountNotRentExempt) ∧
    (∀ d : InsuranceContractData, s = true → own = pid → m ≤ l →
      InsuranceContractData.try_from_slice data = .ok d → d.is_initialized = true →
      (process_save_insurance_contract pid s own l m data i).2 =
        .error InsuranceContractError.AlreadyInitialized.toProgramError) ∧
    (∀ d : InsuranceContractData, s = true → own = pid → m ≤ l →
      InsuranceContractData.try_from_slice data = .ok d → d.is_initialized = false →
      d.is_closed = true →
      (process_save_insurance_contract pid s own l m data i).2 =
        .error InsuranceContractError.AlreadyClosed.toProgramError) ∧
    (s = false →
      (process_close_insurance_contract pid s own data).2 =
        .error ProgramError.MissingRequiredSignature) ∧
    (s = true → own ≠ pid →
      (process_close_insurance_contract pid s own data).2 =
        .error ProgramError.IncorrectProgramId) ∧
    (∀ d : InsuranceContractData, s = true → own = pid →
      InsuranceContractData.try_from_slice data = .ok d → d.is_initialized = false →
      (process_close_insurance_contract pid s own data).2 =
        .error InsuranceContractError.NotInitialized.toProgramError) ∧
    (∀ d : InsuranceContractData, s = true → own = pid →
      InsuranceContractData.try_from_slice data = .ok d → d.is_initialized = true →
      d.is_closed = true →
      (process_close_insurance_contract pid s own data).2 =
        .error InsuranceContractError.AlreadyClosed.toProgramError) := by
  refine ⟨?_, ?_, ?_, ?_, ?_, ?_, ?_, ?_, ?_⟩
  · intro hs; simp [process_save_insurance_contract, hs]
  · intro hs ho; simp [process_save_insurance_contract, hs, ho]
  · intro hs ho hl; subst ho; simp [process_save_insurance_contract, hs, hl]
  · intro d hs ho hm hd hi; subst ho
    simp [process_save_insurance_contract, hs, Nat.not_lt.mpr hm, hd, hi]
  · intro d hs ho hm hd hi hc; subst ho
    simp [process_save_insurance_contract, hs, Nat.not_lt.mpr hm, hd, hi, hc]
  · intro hs; simp [process_close_insurance_contract, hs]
  · intro hs ho; simp [process_close_insurance_contract, hs, ho]
  · intro d hs ho hd hi; subst ho
    simp [process_close_insurance_contract, hs, hd, hi]
  · intro d hs ho hd hi hc; subst ho
    simp [process_close_insurance_contract, hs, hd, hi, hc]

theorem precondition_order_first_failure_wins_witness :
    (process_save_insurance_contract 1 false 2 0 1 zeroRecord 9).2 =
      .error ProgramError.MissingRequiredSignature ∧
    (process_close_insurance_contract 3 true 3
        (InsuranceContractData.serializeBytes ⟨true, true, 5⟩)).2 =
      .error InsuranceContractError.AlreadyClosed.toProgramError :=
  ⟨(precondition_order_first_failure_wins 1 2 0 1 9 false zeroRecord).1 rfl,
   (precondition_order_first_failure_wins 3 3 0 0 0 true
        (InsuranceContractData.serializeBytes ⟨true, true, 5⟩)).2.2.2.2.2.2.2.2
      ⟨true, true, 5⟩ rfl rfl rfl rfl rfl⟩

/-- C4: on a record decoding as initialized and not closed, Close (signed,
owner matching) succeeds, sets `closed`, and leaves `initialized` and the
identifier exactly as they were. -/
theorem close_preserves_identifier_and_init (program_id : Nat) (account_data : List Nat)
    (d : InsuranceContractData)
    (hdec : InsuranceContractData.try_from_slice account_data = .ok d)
    (hini : d.is_initialized = true) (hclo : d.is_closed = false)
    (hid : d.insurance_contract_id < 2 ^ 32) :
    (process_close_insurance_contract program_id true program_id account_data).2 =
      .ok () ∧
      InsuranceContractData.try_from_slice
        (process_close_insurance_contract program_id true program_id account_data).1 =
        .ok ⟨d.is_initialized, true, d.insurance_contract_id⟩ := by
  unfold process_close_insurance_contract
  rw [if_neg (by simp), if_neg (by simp), hdec]
  simp only [hini, hclo, Bool.true_eq_false, Bool.false_eq_true, if_false]
  rw [serializeInto_full _ (try_from_slice_ok_length hdec)]
  refine ⟨rfl, ?_⟩
  rw [try_from_slice_serializeBytes]
  have hid2 : d.insurance_contract_id < 4294967296 := by omega
  simp [hini, Nat.mod_eq_of_lt hid2]

theorem close_preserves_identifier_and_init_witness :
    (process_close_insurance_contract 1 true 1
        (InsuranceContractData.serializeBytes ⟨true, false, 11223344⟩)).2 = .ok () ∧
      InsuranceContractData.try_from_slice
        (process_close_insurance_contract 1 true 1
          (InsuranceContractData.serializeBytes ⟨true, false, 11223344⟩)).1 =
        .ok ⟨true, true, 11223344⟩ :=
  close_preserves_identifier_and_init 1 _ ⟨true, false, 11223344⟩ rfl rfl rfl (by decide)

/-- C5: atomicity on failure: whenever an invocation (Initialize or Close,
any host facts) returns an error, the record bytes after the call are
identical to the bytes before it. -/
theorem failed_operation_preserves_bytes (account_data : List Nat) (op : Op)
    (e : ProgramError) (h : (applyOp account_data op).2 = .error e) :
    (applyOp account_data op).1 = account_data := by
  cases op with
  | save pid s own l m i =>
    rcases save_cases pid s own l m account_data i with ⟨e0, he⟩ | ⟨-, -, -, d, -, -, -, hok⟩
    · simp [applyOp, he]
    · simp only [applyOp] at h
      rw [hok] at h
      simp at h
  | close pid s own =>
    rcases close_cases pid s own account_data with ⟨e0, he⟩ | ⟨-, -, d, -, -, -, hok⟩
    · simp [applyOp, he]
    · simp only [applyOp] at h
      rw [hok] at h
      simp at h

theorem failed_operation_preserves_bytes_witness :
    (applyOp [] (Op.close 1 true 1)).1 = ([] : List Nat) :=
  failed_operation_preserves_bytes [] (Op.close 1 true 1) ProgramError.BorshIoError rfl

/-- C10: the program-specific error type has exactly the four variants
`InvalidInstruction`, `NotInitialized`, `AlreadyInitialized`,
`AlreadyClosed`, mapped to custom host codes 0, 1, 2, 3 in declaration
order; missing authorization, owner mismatch, underfunding and record
decoding failures surface as the host's `MissingRequiredSignature`,
`IncorrectProgramId`, `AccountNotRentExempt` and borsh I/O errors, not as
variants of this type. -/
theorem error_variants_and_host_mapping :
    (∀ e : InsuranceContractError,
      e = .InvalidInstruction ∨ e = .NotInitialized ∨ e = .AlreadyInitialized ∨
        e = .AlreadyClosed) ∧
    InsuranceContractError.InvalidInstruction.toProgramError = .Custom 0 ∧
    InsuranceContractError.NotInitialized.toProgramError = .Custom 1 ∧
    InsuranceContractError.AlreadyInitialized.toProgramError = .Custom 2 ∧
    InsuranceContractError.AlreadyClosed.toProgramError = .Custom 3 ∧
    (∀ pid own l m i data, (process_save_insurance_contract pid false own l m data i).2 =
      .error ProgramError.MissingRequiredSignature) ∧
    (∀ pid own l m i data, own ≠ pid →
      (process_save_insurance_contract pid true own l m data i).2 =
        .error ProgramError.IncorrectProgramId) ∧
    (∀ pid l m i data, l < m →
      (process_save_insurance_contract pid true pid l m data i).2 =
        .error ProgramError.AccountNotRentExempt) ∧
    (∀ pid l m i (data : List Nat), m ≤ l →
      data.length < INSURANCE_CONTRACT_DATA_LEN →
      (process_save_insurance_contract pid true pid l m data i).2 =
        .error ProgramError.BorshIoError) := by
  refine ⟨?_, rfl, rfl, rfl, rfl, ?_, ?_, ?_, ?_⟩
  · intro e; cases e <;> simp
  · intro pid own l m i data; simp [process_save_insurance_contract]
  · intro pid own l m i data ho; simp [process_save_insurance_contract, ho]
  · intro pid l m i data hl; simp [process_save_insurance_contract, hl]
  · intro pid l m i data hm hlen
    have herr : InsuranceContractData.try_from_slice data =
        .error ProgramError.BorshIoError := by
      rcases try_from_slice_error_shape data with herr | ⟨d, hok⟩
      · exact herr
      · exact absurd (try_from_slice_ok_length hok) (by omega)
    simp [process_save_insurance_contract, Nat.not_lt.mpr hm, herr]

theorem error_variants_and_host_mapping_witness :
    (process_save_insurance_contract 4 true 9 0 0 zeroRecord 1).2 =
      .error ProgramError.IncorrectProgramId ∧
    (process_save_insurance_contract 4 true 4 3 3 [0, 0] 1).2 =
      .error ProgramError.BorshIoError :=
  ⟨error_variants_and_host_mapping.2.2.2.2.2.2.1 4 9 0 0 1 zeroRecord (by decide),
   error_variants_and_host_mapping.2.2.2.2.2.2.2.2 4 3 3 1 [0, 0] (Nat.le_refl 3)
     (by decide)⟩

/-- The state invariant of the claim, read off a record's bytes: if the
bytes decode at all, a closed record is initialized. -/
def RecordInvariant (account_data : List Nat) : Prop :=
  ∀ d : InsuranceContractData,
    InsuranceContractData.try_from_slice account_data = .ok d →
    d.is_closed = true → d.is_initialized = true

/-- C6: starting from the freshly allocated zeroed record, every record
state reachable by any sequence of invocations (successful or failed)
satisfies: closed implies initialized. -/
theorem reachable_closed_implies_initialized (account_data : List Nat)
    (h : Reachable account_data) : RecordInvariant account_data := by
  induction h with
  | init =>
    intro d hd hc
    rw [show InsuranceContractData.try_from_slice zeroRecord =
        .ok ⟨false, false, 0⟩ from rfl] at hd
    injection hd with hd2
    rw [← hd2] at hc
    exact absurd hc (by simp)
  | step op hR ih =>
    rename_i data0
    cases op with
    | save pid s own l m i =>
      rcases save_cases pid s own l m data0 i with ⟨e0, he⟩ | ⟨-, -, -, d0, -, -, -, hok⟩
      · intro d hd hc
        have hb : (applyOp data0 (Op.save pid s own l m i)).1 = data0 := by
          simp [applyOp, he]
        rw [hb] at hd
        exact ih d hd hc
      · intro d hd hc
        have hb : (applyOp data0 (Op.save pid s own l m i)).1 =
            InsuranceContractData.serializeBytes ⟨true, false, i⟩ := by
          simp [applyOp, hok]
        rw [hb, try_from_slice_serializeBytes] at hd
        injection hd with hd2
        rw [← hd2]
    | close pid s own =>
      rcases close_cases pid s own data0 with ⟨e0, he⟩ | ⟨-, -, d0, hd0, hi0, -, hok⟩
      · intro d hd hc
        have hb : (applyOp data0 (Op.close pid s own)).1 = data0 := by
          simp [applyOp, he]
        rw [hb] at hd
        exact ih d hd hc
      · intro d hd hc
        have hb : (applyOp data0 (Op.close pid s own)).1 =
            InsuranceContractData.serializeBytes ⟨true, true, d0.insurance_contract_id⟩ := by
          simp [applyOp, hok]
        rw [hb, try_from_slice_serializeBytes] at hd
        injection hd with hd2
        rw [← hd2]

theorem reachable_closed_implies_initialized_witness :
    (⟨true, true, 7⟩ : InsuranceContractData).is_initialized = true :=
  reachable_closed_implies_initialized _
    (Reachable.step (Op.close 1 true 1)
      (Reachable.step (Op.save 1 true 1 5 5 7) Reachable.init))
    ⟨true, true, 7⟩ rfl rfl

/-- One invocation against a record decoding as initialized keeps it
initialized and keeps the identifier. -/
theorem applyOp_initialized_preserved {account_data : List Nat} {d : InsuranceContractData}
    (hdec : InsuranceContractData.try_from_slice account_data = .ok d)
    (hini : d.is_initialized = true) (hid : d.insurance_contract_id < 2 ^ 32) (op : Op) :
    ∃ d2 : InsuranceContractData,
      InsuranceContractData.try_from_slice (applyOp account_data op).1 = .ok d2 ∧
        d2.is_initialized = true ∧
        d2.insurance_contract_id = d.insurance_contract_id ∧
        d2.insurance_contract_id < 2 ^ 32 := by
  cases op with
  | save pid s own l m i =>
    rcases save_cases pid s own l m account_data i with
      ⟨e0, he⟩ | ⟨-, -, -, d0, hd0, hi0, -, hok⟩
    · exact ⟨d, by simp [applyOp, he, hdec], hini, rfl, hid⟩
    · rw [hdec] at hd0
      injection hd0 with hde
      rw [← hde] at hi0
      rw [hini] at hi0
      exact absurd hi0 (by simp)
  | close pid s own =>
    rcases close_cases pid s own account_data with
      ⟨e0, he⟩ | ⟨-, -, d0, hd0, hi0, hc0, hok⟩
    · exact ⟨d, by simp [applyOp, he, hdec], hini, rfl, hid⟩
    · rw [hdec] at hd0
      injection hd0 with hde
      subst hde
      refine ⟨⟨true, true, d.insurance_contract_id % 2 ^ 32⟩, ?_, rfl, ?_, ?_⟩
      · have hb : (applyOp account_data (Op.close pid s own)).1 =
            InsuranceContractData.serializeBytes ⟨true, true, d.insurance_contract_id⟩ := by
          simp [applyOp, hok]
        rw [hb, try_from_slice_serializeBytes]
      · exact Nat.mod_eq_of_lt hid
      · exact Nat.mod_lt _ (by norm_num)

/-- Any sequence of invocations against a record decoding as initialized
keeps it initialized and keeps the identifier. -/
theorem applyOps_initialized_preserved (ops : List Op) :
    ∀ (account_data : List Nat) (d : InsuranceContractData),
      InsuranceContractData.try_from_slice account_data = .ok d →
      d.is_initialized = true → d.insurance_contract_id < 2 ^ 32 →
      ∃ d2 : InsuranceContractData,
        InsuranceContractData.try_from_slice (applyOps account_data ops) = .ok d2 ∧
          d2.is_initialized = true ∧
          d2.insurance_contract_id = d.insurance_contract_id ∧
          d2.insurance_contract_id < 2 ^ 32 := by
  induction ops with
  | nil => intro data d hdec hini hid; exact ⟨d, hdec, hini, rfl, hid⟩
  | cons op rest ih =>
    intro data d hdec hini hid
    obtain ⟨d1, h1, h2, h3, h4⟩ := applyOp_initialized_preserved hdec hini hid op
    obtain ⟨d2, g1, g2, g3, g4⟩ := ih _ d1 h1 h2 h4
    exact ⟨d2, g1, g2, g3.trans h3, g4⟩

/-- C7: once a record decodes as initialized (with a `u32` identifier), no
sequence of invocations ever changes the identifier; in particular a
second Initialize, with signature, owner and funding checks passing,
fails with `AlreadyInitialized`. -/
theorem identifier_immutable_once_initialized (account_data : List Nat)
    (d : InsuranceContractData)
    (hdec : InsuranceContractData.try_from_slice account_data = .ok d)
    (hini : d.is_initialized = true) (hid : d.insurance_contract_id < 2 ^ 32) :
    (∀ (ops : List Op) (d2 : InsuranceContractData),
      InsuranceContractData.try_from_slice (applyOps account_data ops) = .ok d2 →
      d2.insurance_contract_id = d.insurance_contract_id) ∧
    (∀ pid l m i, m ≤ l →
      (process_save_insurance_contract pid true pid l m account_data i).2 =
        .error InsuranceContractError.AlreadyInitialized.toProgramError) := by
  constructor
  · intro ops d2 hd2
    obtain ⟨d3, g1, -, g3, -⟩ :=
      applyOps_initialized_preserved ops account_data d hdec hini hid
    rw [hd2] at g1
    injection g1 with g
    rw [g]
    exact g3
  · intro pid l m i hm
    simp [process_save_insurance_contract, Nat.not_lt.mpr hm, hdec, hini]

theorem identifier_immutable_once_initialized_witness :
    (11223344 : Nat) = 11223344 ∧
    (process_save_insurance_contract 1 true 1 5 5
        (InsuranceContractData.serializeBytes ⟨true, false, 11223344⟩) 99).2 =
      .error InsuranceContractError.AlreadyInitialized.toProgramError :=
  ⟨(identifier_immutable_once_initialized
      (InsuranceContractData.serializeBytes ⟨true, false, 11223344⟩)
      ⟨true, false, 11223344⟩ rfl rfl (by decide)).1
      [Op.close 1 true 1] ⟨true, true, 11223344⟩ rfl,
   (identifier_immutable_once_initialized
      (InsuranceContractData.serializeBytes ⟨true, false, 11223344⟩)
      ⟨true, false, 11223344⟩ rfl rfl (by decide)).2 1 5 5 99 (Nat.le_refl 5)⟩

end InsuranceContract
